import Mathlib

/-!
Verification of the magnetic-survey bookkeeping of
`SimPEG/potential_fields/magnetics/survey.py` (class `MagneticSurvey`),
as a shallow embedding in Lean 4.

The Python class holds a `source_field` (an ordered receiver list plus the
inducing-field parameters), delegates `nRx` / `receiver_locations` /
`components` to the first receiver, and lazily computes and caches the
per-(receiver, component) data-count vector `vnD`; `nD` is `vnD.sum()`.
The lazy `vnD` computation also `print`s the computed list on a cache miss,
which we model as an explicit output trace.

The `Receiver` / `SourceField` data types live in `receivers.py` /
`sources.py`, which are not part of the visible source; they are modelled
from the spec: a receiver is an `(N, 3)` array of locations together with an
ordered map `component name → optional boolean mask over locations`, and a
source field owns an ordered receiver list and the inducing-field triple
`(intensity, inclination, declination)`.  Python truthiness of a mask value
(`if receiver.components[component]:`) is `False` exactly for `None` and for
an empty mask.
-/

namespace Magnetics

/-- A receiver location, an `(x, y, z)` triple. -/
abbrev Loc : Type := ℚ × ℚ × ℚ

/-- Modelled from the spec: a receiver (`receivers.py` is not in the visible
source): observation locations `(N, 3)` plus an ordered map
`component name → optional boolean mask over locations`; an empty/None mask
means "all N locations measure this component". -/
structure Receiver where
  locations : List Loc
  components : List (String × Option (List Bool))
deriving DecidableEq

/-- Modelled from the spec: a source field (`sources.py` is not in the
visible source): an ordered list of receivers and the inducing-field
parameters `(intensity nT, inclination deg, declination deg)`. -/
structure SourceField where
  receiver_list : List Receiver
  parameters : ℚ × ℚ × ℚ
deriving DecidableEq

/-- Error taxonomy of the spec; `configurationError` is the condition the
spec assigns to an empty receiver list at construction. -/
inductive SurveyError where
  | configurationError : SurveyError
deriving DecidableEq

/-- The survey state: the stored source field and the `_vnD` cache slot.
`none` models the attribute being absent or `None`
(`getattr(self, '_vnD', None) is None`). -/
structure MagneticSurvey where
  source_field : SourceField
  _vnD : Option (List Nat) := none
deriving DecidableEq

/-- `MagneticSurvey.__init__`: stores the source field and delegates to
`BaseSurvey.__init__` with no further arguments; no validation of any kind
is performed, so construction always succeeds.  The `Except` codomain makes
the (absent) failure behaviour expressible. -/
def MagneticSurvey.construct (sf : SourceField) : Except SurveyError MagneticSurvey :=
  Except.ok { source_field := sf, _vnD := none }

/-- `MagneticSurvey.eval`: `return fields`. -/
def MagneticSurvey.eval {α : Type} (_s : MagneticSurvey) (fields : α) : α :=
  fields

/-- `MagneticSurvey.nRx`: `self.source_field.receiver_list[0].locations.shape[0]`.
Indexing `[0]` raises `IndexError` on an empty list, modelled by `none`. -/
def MagneticSurvey.nRx (s : MagneticSurvey) : Option Nat :=
  s.source_field.receiver_list.head?.map (fun r => r.locations.length)

/-- `MagneticSurvey.receiver_locations`:
`self.source_field.receiver_list[0].locations`. -/
def MagneticSurvey.receiver_locations (s : MagneticSurvey) : Option (List Loc) :=
  s.source_field.receiver_list.head?.map (fun r => r.locations)

/-- `MagneticSurvey.components`:
`self.source_field.receiver_list[0].components`. -/
def MagneticSurvey.components (s : MagneticSurvey) :
    Option (List (String × Option (List Bool))) :=
  s.source_field.receiver_list.head?.map (fun r => r.components)

/-- `mask.sum()` on a boolean mask: the number of `True` entries. -/
def maskSum (m : List Bool) : Nat :=
  m.countP (fun b => b = true)

/-- One entry of the `vnD` loop body: `if receiver.components[component]:`
(truthy exactly when the mask is neither `None` nor empty) append
`int(mask.sum())`, else append `self.nRx`. -/
def vnDEntry (nrx : Nat) (m : Option (List Bool)) : Nat :=
  match m with
  | some mask => if mask.isEmpty then nrx else maskSum mask
  | none => nrx

/-- The value `self.nRx` has inside the `vnD` loop: the first receiver's
location count.  The `none` branch is unreachable at every use site (the
loop body only reads `nRx` when the receiver list is non-empty). -/
def firstNRx (sf : SourceField) : Nat :=
  match sf.receiver_list.head? with
  | some r => r.locations.length
  | none => 0

/-- The `vnD` cache-miss computation: start from `[]` and, for each receiver
in list order and each component in dict order, append one count. -/
def computeVnD (sf : SourceField) : List Nat :=
  sf.receiver_list.foldl
    (fun acc r =>
      r.components.foldl (fun acc2 c => acc2 ++ [vnDEntry (firstNRx sf) c.2]) acc)
    []

/-- The `vnD` property as a state transformer: returns the value, the
post-state, and the list of values printed to stdout (the cache-miss branch
executes `print(self._vnD)` before converting to an array). -/
def MagneticSurvey.vnD_run (s : MagneticSurvey) :
    List Nat × MagneticSurvey × List (List Nat) :=
  match s._vnD with
  | some v => (v, s, [])
  | none =>
      let v := computeVnD s.source_field
      (v, { s with _vnD := some v }, [v])

/-- The `nD` property: `self.vnD.sum()`, going through the `vnD` property
(so it shares its cache, state change and output). -/
def MagneticSurvey.nD_run (s : MagneticSurvey) :
    Nat × MagneticSurvey × List (List Nat) :=
  let r := s.vnD_run
  (r.1.sum, r.2.1, r.2.2)

/-- External invalidation of the cached `vnD`: the cache slot is cleared. -/
def MagneticSurvey.invalidate (s : MagneticSurvey) : MagneticSurvey :=
  { s with _vnD := none }

/-- An observable access to the survey: reading `vnD` or reading `nD`. -/
inductive SurveyOp where
  | getVnD : SurveyOp
  | getND : SurveyOp

/-- The post-state of one access. -/
def runOp (s : MagneticSurvey) : SurveyOp → MagneticSurvey
  | SurveyOp.getVnD => s.vnD_run.2.1
  | SurveyOp.getND => s.nD_run.2.1

/-- The post-state of a sequence of accesses. -/
def runOps (s : MagneticSurvey) (ops : List SurveyOp) : MagneticSurvey :=
  ops.foldl runOp s

/-- Offset of receiver `i`'s first entry inside the flat `vnD` vector: the
total component count of the receivers before it. -/
def blockOffset (sf : SourceField) (i : Nat) : Nat :=
  ((sf.receiver_list.take i).map (fun r => r.components.length)).sum

/-- The spec's scenario: a first receiver whose only component is
`{tmi: None}`, here with 4 locations. -/
def rx1 : Receiver :=
  { locations := [(0, 0, 10), (1, 0, 10), (2, 0, 10), (3, 0, 10)],
    components := [("tmi", none)] }

/-- The spec's scenario: a second receiver with component
`{bx: mask with 3 True out of 5}`. -/
def rx2 : Receiver :=
  { locations := [(0, 0, 1), (0, 1, 1), (0, 2, 1), (0, 3, 1), (0, 4, 1)],
    components := [("bx", some [true, true, false, true, false])] }

/-- The scenario source field: the two receivers above, inducing field
`(50000 nT, 90 deg, 0 deg)`. -/
def scenarioSF : SourceField :=
  { receiver_list := [rx1, rx2], parameters := (50000, 90, 0) }

/-- A source field with an empty receiver list. -/
def emptySF : SourceField :=
  { receiver_list := [], parameters := (50000, 90, 0) }

end Magnetics

namespace ForwardSim

/-- Modelled from the spec: the `ForwardSimulator` is not in the visible
source.  `K i j` is the sensitivity of datum `i` to model parameter `j`
(one PrismKernel evaluation combined with the inducing direction); the
claim compares the two `forwardOnly` strategies for a fixed kernel, so the
kernel itself is abstract.  Exact rationals stand in for floating point, so
"numerically equivalent within floating tolerance" becomes exact
equality. -/
def scaleCol (K : Nat → Nat → ℚ) (nD : Nat) (j : Nat) (c : ℚ) : List ℚ :=
  (List.range nD).map (fun i => K i j * c)

/-- Pointwise sum of two data accumulators. -/
def addVec (a b : List ℚ) : List ℚ :=
  List.zipWith (fun x y => x + y) a b

/-- Modelled from the spec: `forwardOnly = true` — the operator is never
materialized; `predict` accumulates each active cell's contribution
directly into an `O(nD)` accumulator. -/
def predict_forwardOnly (K : Nat → Nat → ℚ) (nD nC : Nat) (m : Nat → ℚ) : List ℚ :=
  (List.range nC).foldl (fun acc j => addVec acc (scaleCol K nD j (m j)))
    (List.replicate nD 0)

/-- Modelled from the spec: `forwardOnly = false` — the dense sensitivity
operator, built once (row `i`, column `j` is `K i j`). -/
def sensitivityMatrix (K : Nat → Nat → ℚ) (nD nC : Nat) : List (List ℚ) :=
  (List.range nD).map (fun i => (List.range nC).map (fun j => K i j))

/-- Matrix–vector product: each datum is the dot product of its operator
row with the model vector. -/
def matVec (G : List (List ℚ)) (nC : Nat) (m : Nat → ℚ) : List ℚ :=
  G.map (fun row => (List.zipWith (fun g x => g * x) row ((List.range nC).map m)).sum)

/-- Modelled from the spec: `forwardOnly = false` — `predict(model)` is the
cached operator applied to the model. -/
def predict_cached (K : Nat → Nat → ℚ) (nD nC : Nat) (m : Nat → ℚ) : List ℚ :=
  matVec (sensitivityMatrix K nD nC) nC m

end ForwardSim

namespace Magnetics

/-- Appending one element per list item under a `foldl` is `map`. -/
theorem foldl_append_singleton {α β : Type} (g : α → β) :
    ∀ (l : List α) (acc : List β),
      l.foldl (fun a x => a ++ [g x]) acc = acc ++ l.map g := by
  intro l
  induction l with
  | nil => intro acc; simp
  | cons x xs ih =>
      intro acc
      rw [List.foldl_cons, ih, List.map_cons]
      simp

/-- The generalized shape of the `vnD` double loop: blocks in receiver
order, entries in component order. -/
theorem foldl_vnD_blocks (nrx : Nat) :
    ∀ (l : List Receiver) (acc : List Nat),
      l.foldl
        (fun acc2 r =>
          r.components.foldl (fun a c => a ++ [vnDEntry nrx c.2]) acc2) acc =
      acc ++ (l.map (fun r => r.components.map (fun c => vnDEntry nrx c.2))).flatten := by
  intro l
  induction l with
  | nil => intro acc; simp
  | cons r rs ih =>
      intro acc
      rw [List.foldl_cons, foldl_append_singleton, ih, List.map_cons,
        List.flatten_cons, List.append_assoc]

/-- `computeVnD` written as a flat concatenation of per-receiver blocks. -/
theorem computeVnD_eq_flatten (sf : SourceField) :
    computeVnD sf =
      (sf.receiver_list.map
        (fun r => r.components.map (fun c => vnDEntry (firstNRx sf) c.2))).flatten := by
  unfold computeVnD
  rw [foldl_vnD_blocks]
  simp

/-- Indexing a flattened list of blocks: position (offset of block `i`) + `j`
holds entry `j` of block `i`. -/
theorem flatten_getElem_block {β : Type} :
    ∀ (L : List (List β)) (i j : Nat) (hi : i < L.length),
      j < (L.get ⟨i, hi⟩).length →
      L.flatten[((L.take i).map List.length).sum + j]? = (L.get ⟨i, hi⟩)[j]? := by
  intro L
  induction L with
  | nil => intro i j hi; exact absurd hi (by simp)
  | cons x xs ih =>
      intro i j hi hj
      cases i with
      | zero =>
          rw [List.flatten_cons]
          simp only [List.take_zero, List.map_nil, List.sum_nil, Nat.zero_add]
          exact List.getElem?_append_left hj
      | succ k =>
          rw [List.flatten_cons]
          simp only [List.take_succ_cons, List.map_cons, List.sum_cons]
          rw [Nat.add_assoc, List.getElem?_append_right (Nat.le_add_right _ _),
            Nat.add_sub_cancel_left]
          exact ih k j (Nat.lt_of_succ_lt_succ hi) hj

/-- One access never changes the stored source field. -/
theorem runOp_source_field (s : MagneticSurvey) (op : SurveyOp) :
    (runOp s op).source_field = s.source_field := by
  cases op <;> cases h : s._vnD <;>
    simp [runOp, MagneticSurvey.vnD_run, MagneticSurvey.nD_run, h]

/-- Claim C2: for every survey (in any cache state), reading `nD` yields the
sum of the entries of `vnD`. -/
theorem C2_nD_eq_vnD_sum (s : MagneticSurvey) :
    s.nD_run.1 = s.vnD_run.1.sum :=
  rfl

/-- Claim C9: `MagneticSurvey.eval` returns its argument unchanged, for
every survey and every input value. -/
theorem C9_eval_identity {α : Type} (s : MagneticSurvey) (fields : α) :
    s.eval fields = fields :=
  rfl

/-- Claim C5: on a survey with a non-empty receiver list, `nRx`,
`receiver_locations` and `components` are all delegated from the first
receiver only. -/
theorem C5_first_receiver_delegation (s : MagneticSurvey)
    (h : s.source_field.receiver_list ≠ []) :
    s.nRx = some ((s.source_field.receiver_list.head h).locations.length) ∧
    s.receiver_locations = some ((s.source_field.receiver_list.head h).locations) ∧
    s.components = some ((s.source_field.receiver_list.head h).components) := by
  obtain ⟨⟨rl, params⟩, cache⟩ := s
  cases rl with
  | nil => exact absurd rfl h
  | cons r rs =>
      refine ⟨?_, ?_, ?_⟩ <;>
        simp [MagneticSurvey.nRx, MagneticSurvey.receiver_locations,
          MagneticSurvey.components]

/-- Witness for C5 at the spec's two-receiver scenario survey. -/
theorem C5_first_receiver_delegation_witness :
    (MagneticSurvey.mk scenarioSF none).nRx = some 4 ∧
    (MagneticSurvey.mk scenarioSF none).receiver_locations = some rx1.locations ∧
    (MagneticSurvey.mk scenarioSF none).components = some rx1.components := by
  have h := C5_first_receiver_delegation (MagneticSurvey.mk scenarioSF none)
    (by simp [scenarioSF])
  simpa [scenarioSF, rx1] using h

/-- Counterexample to claim C4: constructing a survey from a source field
with an empty receiver list succeeds and returns an object; no
ConfigurationError is raised. -/
theorem C4_counterexample :
    MagneticSurvey.construct emptySF = Except.ok (MagneticSurvey.mk emptySF none) :=
  rfl

/-- Claim C4 (amended): construction never fails — `__init__` stores the
source field without any validation, for every source field, including one
with an empty receiver list. -/
theorem C4_construct_never_fails (sf : SourceField) :
    MagneticSurvey.construct sf = Except.ok (MagneticSurvey.mk sf none) :=
  rfl

/-- Counterexample to claim C10: on the empty-receiver survey, accessing
`vnD` does not reach the out-of-bounds index — the loop body never runs and
the access returns the empty vector. -/
theorem C10_counterexample :
    (MagneticSurvey.mk emptySF none).vnD_run.1 = [] :=
  rfl

/-- Claim C10 (amended): with an empty receiver list, construction
succeeds; later accesses to `nRx`, `receiver_locations` and `components`
index element 0 of the empty list and fail, while `vnD` returns the empty
vector. -/
theorem C10_deferred_failure (sf : SourceField) (h : sf.receiver_list = []) :
    MagneticSurvey.construct sf = Except.ok (MagneticSurvey.mk sf none) ∧
    (MagneticSurvey.mk sf none).nRx = none ∧
    (MagneticSurvey.mk sf none).receiver_locations = none ∧
    (MagneticSurvey.mk sf none).components = none ∧
    (MagneticSurvey.mk sf none).vnD_run.1 = [] := by
  refine ⟨rfl, ?_, ?_, ?_, ?_⟩ <;>
    simp [MagneticSurvey.nRx, MagneticSurvey.receiver_locations,
      MagneticSurvey.components, MagneticSurvey.vnD_run, computeVnD, h]

/-- Witness for C10 at the concrete empty-receiver source field. -/
theorem C10_deferred_failure_witness :
    MagneticSurvey.construct emptySF = Except.ok (MagneticSurvey.mk emptySF none) ∧
    (MagneticSurvey.mk emptySF none).nRx = none ∧
    (MagneticSurvey.mk emptySF none).receiver_locations = none ∧
    (MagneticSurvey.mk emptySF none).components = none ∧
    (MagneticSurvey.mk emptySF none).vnD_run.1 = [] :=
  C10_deferred_failure emptySF rfl

/-- Counterexample to claim C6: a first (cache-miss) access to `vnD` on the
scenario survey prints the computed vector — an observable side effect
beyond internal caching. -/
theorem C6_counterexample :
    (MagneticSurvey.mk scenarioSF none).vnD_run.2.2 = [[4, 3]] :=
  rfl

/-- Claim C6 (amended): no sequence of `vnD`/`nD` accesses ever mutates the
stored source field, and a cache-hit access changes nothing and prints
nothing; the only effect beyond caching is the diagnostic print on a cache
miss. -/
theorem C6_no_source_mutation :
    (∀ (ops : List SurveyOp) (s : MagneticSurvey),
      (runOps s ops).source_field = s.source_field) ∧
    (∀ (s : MagneticSurvey) (v : List Nat),
      s._vnD = some v → s.vnD_run = (v, s, [])) := by
  constructor
  · intro ops
    induction ops with
    | nil => intro s; rfl
    | cons op rest ih =>
        intro s
        have h1 : runOps s (op :: rest) = runOps (runOp s op) rest := rfl
        rw [h1, ih, runOp_source_field]
  · intro s v h
    simp [MagneticSurvey.vnD_run, h]

/-- Witness for C6 at a concrete cached survey state. -/
theorem C6_no_source_mutation_witness :
    (MagneticSurvey.mk scenarioSF (some [4, 3])).vnD_run =
      ([4, 3], MagneticSurvey.mk scenarioSF (some [4, 3]), []) :=
  C6_no_source_mutation.2 (MagneticSurvey.mk scenarioSF (some [4, 3])) [4, 3] rfl

/-- Claim C7: after invalidating the cache, a read of `nD` equals the sum of
the freshly recomputed `vnD`; in every state `nD` equals `vnD.sum()`, and a
read of `nD` leaves the cache holding exactly the vector whose sum it
returned. -/
theorem C7_nD_consistency (s : MagneticSurvey) :
    s.invalidate.nD_run.1 = (computeVnD s.source_field).sum ∧
    s.nD_run.1 = s.vnD_run.1.sum ∧
    s.nD_run.2.1._vnD = some s.vnD_run.1 := by
  refine ⟨rfl, rfl, ?_⟩
  cases h : s._vnD <;>
    simp [MagneticSurvey.nD_run, MagneticSurvey.vnD_run, h]

/-- Claim C3: `vnD` has one entry per (receiver, component) pair — its
length is the sum over receivers of their component counts — and its
entries are laid out receiver-block by receiver-block, in receiver-list
order, with component insertion order inside each block. -/
theorem C3_vnD_layout (sf : SourceField) :
    (MagneticSurvey.mk sf none).vnD_run.1.length =
      (sf.receiver_list.map (fun r => r.components.length)).sum ∧
    (MagneticSurvey.mk sf none).vnD_run.1 =
      (sf.receiver_list.map
        (fun r => r.components.map (fun c => vnDEntry (firstNRx sf) c.2))).flatten := by
  have hv : (MagneticSurvey.mk sf none).vnD_run.1 = computeVnD sf := rfl
  rw [hv, computeVnD_eq_flatten]
  refine ⟨?_, rfl⟩
  rw [List.length_flatten, List.map_map]
  exact congrArg List.sum (List.map_congr_left (fun r _ => by simp))

/-- Indexing a flattened family of blocks by generator: position (offset of
block `i`) + `j` holds entry `j` of the block generated from item `i`. -/
theorem flatten_map_block {α β : Type} (g : α → List β) (l : List α) (i j : Nat)
    (hi : i < l.length) (hj : j < (g (l.get ⟨i, hi⟩)).length) :
    ((l.map g).flatten)[((l.take i).map (fun x => (g x).length)).sum + j]? =
      some ((g (l.get ⟨i, hi⟩)).get ⟨j, hj⟩) := by
  have hiL : i < (l.map g).length := by simpa using hi
  have hget : (l.map g).get ⟨i, hiL⟩ = g (l.get ⟨i, hi⟩) := by simp
  have hjL : j < ((l.map g).get ⟨i, hiL⟩).length := by rw [hget]; exact hj
  have h1 := flatten_getElem_block (l.map g) i j hiL hjL
  have hoff : (((l.map g).take i).map List.length).sum =
      ((l.take i).map (fun x => (g x).length)).sum := by
    rw [← List.map_take, List.map_map]
    rfl
  rw [hoff, hget] at h1
  rw [h1, List.getElem?_eq_getElem hj]
  rfl

/-- The central `vnD` indexing fact: entry `j` of receiver `i`'s block is
the loop-body count for component `j` of receiver `i`. -/
theorem vnD_getElem_entry (sf : SourceField) (i j : Nat)
    (hi : i < sf.receiver_list.length)
    (hj : j < (sf.receiver_list.get ⟨i, hi⟩).components.length) :
    ((MagneticSurvey.mk sf none).vnD_run.1)[blockOffset sf i + j]? =
      some (vnDEntry (firstNRx sf)
        ((sf.receiver_list.get ⟨i, hi⟩).components.get ⟨j, hj⟩).2) := by
  have hv : (MagneticSurvey.mk sf none).vnD_run.1 = computeVnD sf := rfl
  rw [hv, computeVnD_eq_flatten]
  have hj2 : j < ((fun (r : Receiver) =>
      r.components.map (fun c => vnDEntry (firstNRx sf) c.2))
      (sf.receiver_list.get ⟨i, hi⟩)).length := by
    simpa using hj
  have h1 := flatten_map_block
    (fun (r : Receiver) => r.components.map (fun c => vnDEntry (firstNRx sf) c.2))
    sf.receiver_list i j hi hj2
  have hoff : ((sf.receiver_list.take i).map
      (fun (x : Receiver) =>
        ((fun (r : Receiver) =>
          r.components.map (fun c => vnDEntry (firstNRx sf) c.2)) x).length)).sum =
      blockOffset sf i := by
    rw [blockOffset]
    exact congrArg List.sum (List.map_congr_left (fun r _ => by simp))
  rw [hoff] at h1
  rw [h1]
  simp

/-- Claim C1: entry `j` of receiver `i`'s block of `vnD` is `mask.sum()`
when that component's stored mask is non-empty and `nRx` (the first
receiver's location count) when the mask is empty or `None`; in particular
the spec's two-receiver scenario yields `vnD == [nRx, 3]` with `nRx = 4`. -/
theorem C1_vnD_entries :
    (∀ (sf : SourceField) (i j : Nat)
        (hi : i < sf.receiver_list.length)
        (hj : j < (sf.receiver_list.get ⟨i, hi⟩).components.length),
      (∀ mask : List Bool,
        ((sf.receiver_list.get ⟨i, hi⟩).components.get ⟨j, hj⟩).2 = some mask →
        mask ≠ [] →
        ((MagneticSurvey.mk sf none).vnD_run.1)[blockOffset sf i + j]? =
          some (maskSum mask)) ∧
      (((sf.receiver_list.get ⟨i, hi⟩).components.get ⟨j, hj⟩).2 = none ∨
        ((sf.receiver_list.get ⟨i, hi⟩).components.get ⟨j, hj⟩).2 = some [] →
        ((MagneticSurvey.mk sf none).vnD_run.1)[blockOffset sf i + j]? =
          some (firstNRx sf))) ∧
    (MagneticSurvey.mk scenarioSF none).vnD_run.1 = [4, 3] ∧
    (MagneticSurvey.mk scenarioSF none).nRx = some 4 := by
  refine ⟨?_, rfl, rfl⟩
  intro sf i j hi hj
  constructor
  · intro mask hm hne
    have h := vnD_getElem_entry sf i j hi hj
    rw [hm] at h
    simpa [vnDEntry, hne] using h
  · intro hcase
    have h := vnD_getElem_entry sf i j hi hj
    rcases hcase with hm | hm <;> rw [hm] at h <;> simpa [vnDEntry] using h

/-- Witness for C1 at the scenario: receiver 1, component 0 carries the
3-of-5 mask, so the entry at offset 1 is 3. -/
theorem C1_vnD_entries_witness :
    ((MagneticSurvey.mk scenarioSF none).vnD_run.1)[blockOffset scenarioSF 1 + 0]? =
      some 3 := by
  have h := (C1_vnD_entries.1 scenarioSF 1 0 (by decide) (by decide)).1
    [true, true, false, true, false] rfl (by decide)
  simpa [maskSum] using h

end Magnetics

namespace ForwardSim

/-- Zipping two maps over one index list is a single map. -/
theorem zipWith_map_same {α β γ δ : Type} (f : β → γ → δ) (g : α → β) (h : α → γ)
    (l : List α) :
    List.zipWith f (l.map g) (l.map h) = l.map (fun x => f (g x) (h x)) := by
  simp [List.zipWith_map, List.zipWith_same]

/-- Adding one scaled column to a pointwise-described accumulator. -/
theorem addVec_scaleCol (K : Nat → Nat → ℚ) (nD : Nat) (j : Nat) (c : ℚ)
    (f : Nat → ℚ) :
    addVec ((List.range nD).map f) (scaleCol K nD j c) =
      (List.range nD).map (fun i => f i + K i j * c) := by
  simp [addVec, scaleCol, zipWith_map_same]

/-- The column-accumulation loop computes, in each row, the partial dot
product over the columns visited so far. -/
theorem foldl_accumulate (K : Nat → Nat → ℚ) (nD : Nat) (m : Nat → ℚ) :
    ∀ (js : List Nat) (f : Nat → ℚ),
      js.foldl (fun acc j => addVec acc (scaleCol K nD j (m j)))
          ((List.range nD).map f) =
        (List.range nD).map (fun i => f i + (js.map (fun j => K i j * m j)).sum) := by
  intro js
  induction js with
  | nil => intro f; simp
  | cons j js ih =>
      intro f
      rw [List.foldl_cons, addVec_scaleCol, ih]
      exact List.map_congr_left (fun i _ => by simp [add_assoc])

/-- The on-the-fly strategy computes row `i` as the dot product of kernel
row `i` with the model. -/
theorem predict_forwardOnly_eq (K : Nat → Nat → ℚ) (nD nC : Nat) (m : Nat → ℚ) :
    predict_forwardOnly K nD nC m =
      (List.range nD).map (fun i => ((List.range nC).map (fun j => K i j * m j)).sum) := by
  unfold predict_forwardOnly
  have h0 : (List.replicate nD (0 : ℚ)) = (List.range nD).map (fun _ => (0 : ℚ)) := by
    simp
  rw [h0, foldl_accumulate]
  simp

/-- The materialized strategy computes the same row values. -/
theorem predict_cached_eq (K : Nat → Nat → ℚ) (nD nC : Nat) (m : Nat → ℚ) :
    predict_cached K nD nC m =
      (List.range nD).map (fun i => ((List.range nC).map (fun j => K i j * m j)).sum) := by
  unfold predict_cached matVec sensitivityMatrix
  rw [List.map_map]
  refine List.map_congr_left (fun i _ => ?_)
  simp [Function.comp, zipWith_map_same]

/-- Claim C8: for every kernel, shape and model vector, the
`forwardOnly = true` accumulation and the `forwardOnly = false`
operator-times-model prediction agree exactly. -/
theorem C8_forwardOnly_equivalence (K : Nat → Nat → ℚ) (nD nC : Nat) (m : Nat → ℚ) :
    predict_forwardOnly K nD nC m = predict_cached K nD nC m :=
  (predict_forwardOnly_eq K nD nC m).trans (predict_cached_eq K nD nC m).symm

end ForwardSim
